import Mathlib

/-!
Verification development for `generate_and_send_temp_graph.py`
(Stufo76/Temperature-Monitoring).

The script is a linear extract-transform-report pipeline:
copy the Nagios perfdata file aside, truncate the original, parse the
copy as a 10-column tab-separated table, extract an
`Ambient_temperatureC=<number>` token from the last column, plot one
line per configured host, e-mail the chart plus the raw copy, and
delete the two artifact files.

This file gives a shallow embedding of that pipeline:
* file contents are `List Char`; the file system is a partial map
  `String → Option (List Char)`;
* the pandas regex extraction `str.extract(r'Ambient_temperatureC=([\d.]+)')`
  followed by `.astype(float)` is modelled character by character,
  with float values as exact rationals (`ℚ`) — the decimal literal is
  parsed exactly, which is the arithmetic the claims under scrutiny
  refer to;
* fallible steps return `Except`, and `mainRun` threads the file-system
  state through the pipeline, recording which paths were written and
  whether (and where) the run raised.
-/

namespace TempGraph

/-- Decidable equality for `Except`, so that concrete runs of the model can
be checked by `decide`. -/
instance {ε α : Type} [DecidableEq ε] [DecidableEq α] : DecidableEq (Except ε α) := fun x y =>
  match x, y with
  | Except.ok a, Except.ok b =>
    if h : a = b then isTrue (by rw [h])
    else isFalse (fun hc => h (by cases hc; rfl))
  | Except.ok _, Except.error _ => isFalse (fun hc => Except.noConfusion hc)
  | Except.error _, Except.ok _ => isFalse (fun hc => Except.noConfusion hc)
  | Except.error e, Except.error f =>
    if h : e = f then isTrue (by rw [h])
    else isFalse (fun hc => h (by cases hc; rfl))

/-! ## Temperature extraction

Embeds line 186 of the source:
`data['Temperature'] = data['Temperature_Detail'].str.extract(r'Ambient_temperatureC=([\d.]+)').astype(float)`.
-/

/-- Character class of the regex `[\d.]`. -/
def isDigitOrDot (c : Char) : Bool := c.isDigit || c == '.'

/-- The literal part of the search pattern `Ambient_temperatureC=([\d.]+)`. -/
def tempKey : List Char := ("Ambient_temperatureC=").data

/-- Does the regex `Ambient_temperatureC=([\d.]+)` match at the head of `s`?
It does exactly when `s` starts with the literal key and at least one
`[\d.]` character follows (the `+` needs one repetition). -/
def keyMatchAt (s : List Char) : Bool :=
  tempKey.isPrefixOf s &&
    (match (s.drop tempKey.length).head? with
     | some c => isDigitOrDot c
     | none => false)

/-- `re.search` semantics of the pattern: scan left to right for the first
position where the whole pattern matches; the captured group is the
maximal run of `[\d.]` characters after the `=`. -/
def extractToken : List Char → Option (List Char)
  | [] => none
  | c :: rest =>
    if keyMatchAt (c :: rest) then
      some (((c :: rest).drop tempKey.length).takeWhile isDigitOrDot)
    else extractToken rest

/-- Value of a digit string read in base 10 (how `float` reads the integer
and fractional digit blocks). -/
def digitsToNat (l : List Char) : Nat :=
  l.foldl (fun a c => 10 * a + (c.toNat - 48)) 0

/-- At most one `'.'` occurs in `s`. -/
def atMostOneDot (s : List Char) : Bool :=
  match s.filter (fun c => c == '.') with
  | [] => true
  | [_] => true
  | _ => false

/-- Python's `float` accepts a string drawn from `[\d.]` exactly when it has
at most one dot and at least one digit (`"1.2.3"`, `"."`, `".."` all raise
`ValueError`; `"7"`, `"21.5"`, `"1."`, `".5"` are accepted). -/
def validFloatRun (s : List Char) : Bool :=
  atMostOneDot s && s.any (fun c => c.isDigit)

/-- `float` applied to a captured `[\d.]+` run: `none` models the
`ValueError` that `astype(float)` turns into a run-aborting exception;
otherwise the exact rational value of the decimal literal. -/
def parseRun (s : List Char) : Option ℚ :=
  if validFloatRun s then
    some
      (match s.dropWhile (fun c => !(c == '.')) with
       | [] => (digitsToNat (s.takeWhile (fun c => !(c == '.'))) : ℚ)
       | _ :: fp =>
           (digitsToNat (s.takeWhile (fun c => !(c == '.'))) : ℚ)
             + (digitsToNat fp : ℚ) / (10 : ℚ) ^ fp.length)
  else none

/-- One cell of the `astype(float)`-converted `Temperature` column:
`ok none` is pandas `NaN` (no regex match — the missing-data marker),
`ok (some q)` a parsed value, `error ()` the `ValueError` raised by
`astype(float)` when the captured text is not a valid float literal. -/
def extractTemperature (blob : List Char) : Except Unit (Option ℚ) :=
  match extractToken blob with
  | none => Except.ok none
  | some run =>
    match parseRun run with
    | some q => Except.ok (some q)
    | none => Except.error ()

/-! ## Record loading

Embeds lines 178-179 of the source:
`pd.read_csv(copied_file, delimiter='\t', header=None, names=[...10 names...])`.
A file's content is its character list; rows are newline-separated,
fields tab-separated.  Blank lines are skipped (pandas
`skip_blank_lines` default).  A line that does not split into exactly
the ten named columns is modelled as a parse failure, per the loader
contract (pandas' own salvage heuristics for ragged rows — NaN padding,
index inference — are not load-bearing for any claim: every claim that
touches malformed input is settled through inputs on which the real
library and this model agree, e.g. a malformed temperature literal that
makes `astype(float)` raise). -/

/-- Split a character list at every occurrence of `sep` (the separator is
dropped; `n` separators yield `n+1` pieces). -/
def splitOnChar (sep : Char) : List Char → List (List Char)
  | [] => [[]]
  | c :: cs =>
    match splitOnChar sep cs with
    | [] => if c = sep then [[], []] else [[c]]
    | f :: rest => if c = sep then [] :: f :: rest else (c :: f) :: rest

/-- One input line, with the ten positional columns named as in the
`names=[...]` argument of `read_csv`. -/
structure RawRecord where
  timestamp : List Char
  host : List Char
  service : List Char
  status : List Char
  unknownCol : List Char
  state : List Char
  metric1 : List Char
  metric2 : List Char
  details : List Char
  tempDetail : List Char
deriving DecidableEq

/-- Parse one tab-separated line into the ten named columns. -/
def parseLine (l : List Char) : Except Unit RawRecord :=
  match splitOnChar '\t' l with
  | [t, h, s, st, u, sta, m1, m2, d, td] =>
      Except.ok ⟨t, h, s, st, u, sta, m1, m2, d, td⟩
  | _ => Except.error ()

/-- Parse a list of lines in order, failing on the first bad line. -/
def parseLines : List (List Char) → Except Unit (List RawRecord)
  | [] => Except.ok []
  | l :: ls =>
    match parseLine l with
    | Except.error e => Except.error e
    | Except.ok r =>
      match parseLines ls with
      | Except.error e => Except.error e
      | Except.ok rs => Except.ok (r :: rs)

/-- The whole `read_csv` call on a file content. -/
def read_csv (content : List Char) : Except Unit (List RawRecord) :=
  parseLines ((splitOnChar '\n' content).filter (fun l => !l.isEmpty))

/-! ## Derived readings -/

/-- One row of the processed dataframe as the renderer sees it: the
`Host`, `Date` and `Temperature` columns.  `Date` keeps the epoch
seconds; `pd.to_datetime(..., unit='s')` (line 188) and the
UTC→Europe/Rome conversion inside the renderer are injective
display-time relabelings and carry no claim-relevant structure. -/
structure Reading where
  host : List Char
  date : Nat
  temp : Option ℚ
deriving DecidableEq

/-- The `Temperature` column: `astype(float)` converts every captured
token of the column at once, so one malformed literal fails the whole
step (a run-aborting `ValueError`). -/
def extractTemps : List RawRecord → Except Unit (List (Option ℚ))
  | [] => Except.ok []
  | r :: rs =>
    match extractTemperature r.tempDetail with
    | Except.error e => Except.error e
    | Except.ok t =>
      match extractTemps rs with
      | Except.error e => Except.error e
      | Except.ok ts => Except.ok (t :: ts)

/-- `pd.to_datetime(data['Timestamp'], unit='s')` (line 188) requires the
timestamp column to be numeric; a non-numeric timestamp raises. -/
def datesOk (rs : List RawRecord) : Bool :=
  rs.all (fun r => !r.timestamp.isEmpty && r.timestamp.all (fun c => c.isDigit))

/-- Assemble the dataframe rows used by the renderer, in input order. -/
def buildReadings (rs : List RawRecord) (ts : List (Option ℚ)) : List Reading :=
  (rs.zip ts).map (fun p => ⟨p.1.host, digitsToNat p.1.timestamp, p.2⟩)

/-! ## Graph renderer

Embeds `generate_graph` (lines 115-146).  The observable behaviour the
claims speak about is which `plt.plot` calls are made: for each
`(host, color)` pair produced by `zip(hosts, colors)` in order, the rows
with `data['Host'] == host` are selected — with no condition on the
`Temperature` column — and a series is drawn unless that selection is
empty.  We record each drawn series as `(host, color, rows)`. -/

/-- `data[data['Host'] == host]`: row selection by host name only. -/
def seriesFor (data : List Reading) (host : List Char) : List Reading :=
  data.filter (fun r => r.host == host)

/-- The `for host, color in zip(hosts, colors)` loop body:
skip the pair when `host_data.empty`, otherwise draw the series. -/
def plotPairs (data : List Reading) :
    List (List Char × List Char) → List (List Char × List Char × List Reading)
  | [] => []
  | p :: rest =>
    let hd := seriesFor data p.1
    if hd.isEmpty then plotPairs data rest
    else (p.1, p.2, hd) :: plotPairs data rest

/-- The series drawn by `generate_graph`, in drawing order. -/
def generate_graph (data : List Reading) (hosts colors : List (List Char)) :
    List (List Char × List Char × List Reading) :=
  plotPairs data (hosts.zip colors)

/-! ## Notifier

Embeds `send_email` (lines 74-112).  The attachment loop (lines 99-105)
`open`s each listed path *before* the `try` block; a missing file there
raises out of the function.  Only the SMTP session (lines 108-112) is
wrapped in `try/except`, and its failure is printed, not re-raised. -/

/-- A file system: path → content. -/
abbrev FS := String → Option (List Char)

/-- How a `send_email` call ends: a normal return (possibly having
printed a delivery-failure line) or a propagated exception. -/
inductive SendOutcome
  | ok (logged : Option (List Char))
  | raised (msg : List Char)
deriving DecidableEq

/-- Message of the `FileNotFoundError` raised by `open` on a missing path. -/
def fileNotFoundMsg (p : String) : List Char :=
  ("FileNotFoundError: ").data ++ p.data

/-- The line printed by the `except` branch (line 112). -/
def smtpFailMsg (e : List Char) : List Char :=
  ("Failed to send email: ").data ++ e

/-- `send_email`: read every attachment in order (first unreadable path
raises), then attempt the SMTP send, whose outcome is an environment
parameter `smtp`; an SMTP exception is caught and printed. -/
def send_email (readFile : FS) (attachments : List String)
    (smtp : Except (List Char) Unit) : SendOutcome :=
  match attachments.find? (fun a => (readFile a).isNone) with
  | some a => SendOutcome.raised (fileNotFoundMsg a)
  | none =>
    match smtp with
    | Except.ok _ => SendOutcome.ok none
    | Except.error e => SendOutcome.ok (some (smtpFailMsg e))

/-! ## The main pipeline

Embeds `main` (lines 149-203) from the copy step on; argument parsing
and `configparser` are glue that only delivers the values below.  The
`[Hosts]` comma-splitting is likewise glue: `hosts` and `colors` arrive
as the already-split lists. -/

/-- The configuration values `main` reads. -/
structure Config where
  original_file : String
  copied_file : String
  graph_file : String
  excel_file : String
  hosts : List (List Char)
  colors : List (List Char)

/-- Where a run raised, if it did. -/
inductive RunError
  | sameFile      -- `shutil.copyfile` with `src == dst` raises `SameFileError`
  | copyError     -- source file unreadable: `copyfile` raises before any write
  | parseError    -- `read_csv` failure
  | extractError  -- `astype(float)` failure on a captured temperature token
  | dateError     -- `to_datetime(..., unit='s')` failure
  | attachRaise   -- attachment `open` raised inside `send_email`
  | removeError   -- `os.remove` on a missing path
deriving DecidableEq

/-- Overwrite (or create) a file. -/
def writeFile (fs : FS) (p : String) (c : List Char) : FS :=
  fun q => if q = p then some c else fs q

/-- Delete a path from the file system. -/
def removeFile (fs : FS) (p : String) : FS :=
  fun q => if q = p then none else fs q

/-- `os.remove`: raises if the path does not exist. -/
def osRemove (fs : FS) (p : String) : Except Unit FS :=
  match fs p with
  | none => Except.error ()
  | some _ => Except.ok (removeFile fs p)

/-- Lines 171-175: `shutil.copyfile(original_file, copied_file)` followed
by `open(original_file, 'w').close()`.  `copyfile` raises
`SameFileError` when the two paths coincide and `FileNotFoundError`
(before touching the destination) when the source is unreadable; on
success the destination holds exactly the source bytes and the original
is then truncated to empty. -/
def copyStep (cfg : Config) (fs0 : FS) : Except RunError (FS × List Char) :=
  if cfg.copied_file = cfg.original_file then Except.error RunError.sameFile
  else
    match fs0 cfg.original_file with
    | none => Except.error RunError.copyError
    | some content =>
        Except.ok
          (writeFile (writeFile fs0 cfg.copied_file content) cfg.original_file [],
           content)

/-- Placeholder bytes for the rendered chart image: the claims only
concern the file's existence, never the pixels. -/
def pngBytes : List Char := ("png").data

/-- Everything observable about one run of `main`. -/
structure MainResult where
  fs : FS
  err : Option RunError
  plotted : List (List Char × List Char × List Reading)
  emailLog : Option (List Char)
  writes : List String

/-- One run of `main` (lines 171-203), as a function of the configuration,
the initial file system, and the SMTP environment's response.  Steps in
source order: copy + truncate, `read_csv` on the copy, temperature
extraction, timestamp conversion, graph rendering (which writes the
image file), `send_email` with the graph and the raw copy attached, and
finally the two `os.remove` calls — which are reached only when every
prior step returned normally.  `writes` records each path written, in
order. -/
def mainRun (cfg : Config) (fs0 : FS) (smtp : Except (List Char) Unit) : MainResult :=
  match copyStep cfg fs0 with
  | Except.error e => ⟨fs0, some e, [], none, []⟩
  | Except.ok (fs2, _) =>
    match fs2 cfg.copied_file with
    | none =>
        ⟨fs2, some RunError.parseError, [], none,
         [cfg.copied_file, cfg.original_file]⟩
    | some c2 =>
      match read_csv c2 with
      | Except.error _ =>
          ⟨fs2, some RunError.parseError, [], none,
           [cfg.copied_file, cfg.original_file]⟩
      | Except.ok records =>
        match extractTemps records with
        | Except.error _ =>
            ⟨fs2, some RunError.extractError, [], none,
             [cfg.copied_file, cfg.original_file]⟩
        | Except.ok temps =>
          if datesOk records then
            match send_email (writeFile fs2 cfg.graph_file pngBytes)
                [cfg.graph_file, cfg.copied_file] smtp with
            | SendOutcome.raised _ =>
                ⟨writeFile fs2 cfg.graph_file pngBytes,
                 some RunError.attachRaise,
                 generate_graph (buildReadings records temps) cfg.hosts cfg.colors,
                 none, [cfg.copied_file, cfg.original_file, cfg.graph_file]⟩
            | SendOutcome.ok lg =>
              match osRemove (writeFile fs2 cfg.graph_file pngBytes)
                  cfg.copied_file with
              | Except.error _ =>
                  ⟨writeFile fs2 cfg.graph_file pngBytes,
                   some RunError.removeError,
                   generate_graph (buildReadings records temps) cfg.hosts cfg.colors,
                   lg, [cfg.copied_file, cfg.original_file, cfg.graph_file]⟩
              | Except.ok fs4 =>
                match osRemove fs4 cfg.graph_file with
                | Except.error _ =>
                    ⟨fs4, some RunError.removeError,
                     generate_graph (buildReadings records temps) cfg.hosts cfg.colors,
                     lg, [cfg.copied_file, cfg.original_file, cfg.graph_file]⟩
                | Except.ok fs5 =>
                    ⟨fs5, none,
                     generate_graph (buildReadings records temps) cfg.hosts cfg.colors,
                     lg, [cfg.copied_file, cfg.original_file, cfg.graph_file]⟩
          else
            ⟨fs2, some RunError.dateError, [], none,
             [cfg.copied_file, cfg.original_file]⟩

/-! ## Theorems -/

/-- C1 (corrected): characterization of the extraction step's outcomes.
The temperature is absent (pandas `NaN`) exactly when the regex finds no
token — no key, or a key followed by no `[\d.]` character.  But a token
whose captured digit-and-dot run is not a valid float literal does not
yield an absent value: it makes the step raise. -/
theorem extractTemperature_absent_iff_no_token (blob : List Char) :
    (extractTemperature blob = Except.ok none ↔ extractToken blob = none)
    ∧ (extractTemperature blob = Except.error () ↔
        ∃ r, extractToken blob = some r ∧ validFloatRun r = false) := by
  cases h : extractToken blob with
  | none =>
    refine ⟨by simp [extractTemperature, h], ?_⟩
    simp [extractTemperature, h]
  | some r =>
    cases hv : validFloatRun r with
    | false =>
      refine ⟨by simp [extractTemperature, h, parseRun, hv], ?_⟩
      simp only [extractTemperature, h, parseRun, hv, if_neg]
      simp [hv]
    | true =>
      refine ⟨by simp [extractTemperature, h, parseRun, hv], ?_⟩
      simp only [extractTemperature, h, parseRun, hv, if_pos]
      simp only [Option.some.injEq, exists_eq_left]
      constructor
      · intro hc
        exact absurd hc (by simp)
      · rintro ⟨r', hr', hv'⟩
        cases hr'
        rw [hv] at hv'
        simp at hv'

/-- Concrete input for the C1 counterexample run. -/
def cfgC1 : Config :=
  ⟨"o1", "c1", "g1", "x1", [("h1").data], [("blue").data]⟩

/-- A perfdata file whose only record carries the malformed token
`Ambient_temperatureC=1.2.3`. -/
def fsC1 : FS := fun p =>
  if p = "o1" then
    some (("7\th1\ts\tOK\t0\t1\tm1\tm2\td\tAmbient_temperatureC=1.2.3").data)
  else none

/-- C1 counterexample: a record whose token value part is malformed
(`1.2.3` matches `[\d.]+` but is no float literal) does not produce an
absent temperature — the extraction step raises, and the whole run
aborts with that error. -/
theorem extractTemperature_malformed_value_raises :
    extractTemperature (("Ambient_temperatureC=1.2.3").data) = Except.error ()
    ∧ (mainRun cfgC1 fsC1 (Except.ok ())).err = some RunError.extractError := by
  decide

/-- The renderer loop draws, in order, one series per zipped
`(host, color)` pair whose host selection is non-empty, and that series
is exactly the host selection. -/
theorem plotPairs_eq_filter_map (data : List Reading)
    (ps : List (List Char × List Char)) :
    plotPairs data ps
      = (ps.filter (fun p => !(seriesFor data p.1).isEmpty)).map
          (fun p => (p.1, p.2, seriesFor data p.1)) := by
  induction ps with
  | nil => rfl
  | cons p rest ih =>
    cases h : (seriesFor data p.1).isEmpty with
    | true => simp [plotPairs, h, List.filter_cons, ih]
    | false => simp [plotPairs, h, List.filter_cons, ih]

/-- C4 (corrected): the renderer draws exactly one series per listed host
whose selection `data[data['Host'] == host]` is non-empty — presence of
a temperature value plays no part in the test — in host-list order, and
each drawn series consists of all of that host's rows, absent
temperatures included. -/
theorem generate_graph_series_characterization (data : List Reading)
    (hosts colors : List (List Char)) :
    generate_graph data hosts colors
      = ((hosts.zip colors).filter (fun p => !(seriesFor data p.1).isEmpty)).map
          (fun p => (p.1, p.2, seriesFor data p.1)) :=
  plotPairs_eq_filter_map data (hosts.zip colors)

/-- C4 counterexample: a dataset whose single reading for `h1` has an
absent temperature.  The claim says such a host contributes no series
and that a series would use only present-temperature readings; the code
draws one series for `h1` and passes it the absent-temperature row. -/
theorem generate_graph_plots_host_without_present_temp :
    (∀ r ∈ [(⟨("h1").data, 0, (none : Option ℚ)⟩ : Reading)], r.temp = none)
    ∧ generate_graph [⟨("h1").data, 0, none⟩] [("h1").data] [("blue").data]
        = [(("h1").data, ("blue").data, [⟨("h1").data, 0, none⟩])] := by
  decide

/-- Zipping truncates both lists to the shorter length. -/
theorem zip_eq_zip_take_min {α β : Type} (l : List α) (l' : List β) :
    l.zip l' = (l.take (min l.length l'.length)).zip
      (l'.take (min l.length l'.length)) := by
  induction l generalizing l' with
  | nil => simp
  | cons a as ih =>
    cases l' with
    | nil => simp
    | cons b bs =>
      simp only [List.length_cons, Nat.succ_min_succ, List.take_succ_cons,
        List.zip_cons_cons]
      exact congrArg _ (ih bs)

/-- C10 (confirmed): with host and color lists of different lengths the
renderer behaves exactly as on the two lists truncated to the shorter
length — the excess entries are ignored without error — and the `i`-th
considered pair joins the `i`-th host with the `i`-th color. -/
theorem generate_graph_zip_truncation (data : List Reading)
    (hosts colors : List (List Char)) :
    generate_graph data hosts colors
      = generate_graph data (hosts.take (min hosts.length colors.length))
          (colors.take (min hosts.length colors.length))
    ∧ ∀ (i : Nat) (h c : List Char), hosts[i]? = some h → colors[i]? = some c →
        (hosts.zip colors)[i]? = some (h, c) := by
  constructor
  · unfold generate_graph
    rw [← zip_eq_zip_take_min]
  · intro i h c hh hc
    rw [List.getElem?_zip_eq_some]
    exact ⟨hh, hc⟩

/-- Witness for the truncation theorem at concrete lists: two hosts, one
color — only the first pair is considered. -/
theorem generate_graph_zip_truncation_witness :
    generate_graph [] [("h1").data, ("h2").data] [("blue").data]
      = generate_graph []
          ([("h1").data, ("h2").data].take
            (min [("h1").data, ("h2").data].length [("blue").data].length))
          ([("blue").data].take
            (min [("h1").data, ("h2").data].length [("blue").data].length))
    ∧ ([("h1").data, ("h2").data].zip [("blue").data])[0]?
        = some (("h1").data, ("blue").data) := by
  refine ⟨(generate_graph_zip_truncation [] _ _).1, ?_⟩
  exact (generate_graph_zip_truncation [] [("h1").data, ("h2").data]
    [("blue").data]).2 0 (("h1").data) (("blue").data) (by decide) (by decide)

/-- C8 (confirmed): when every attachment is readable, `send_email`
returns normally whatever the SMTP session does; an SMTP exception is
only printed — the reported failure is the log line, not a raise. -/
theorem send_email_swallows_smtp_failure (f : FS) (atts : List String)
    (e : List Char) (h : ∀ a ∈ atts, (f a).isSome) :
    send_email f atts (Except.error e) = SendOutcome.ok (some (smtpFailMsg e))
    ∧ send_email f atts (Except.ok ()) = SendOutcome.ok none := by
  have hf : atts.find? (fun a => (f a).isNone) = none := by
    rw [List.find?_eq_none]
    intro a ha
    simp only [Option.isNone_iff_eq_none]
    intro hn
    exact absurd (h a ha) (by simp [hn])
  constructor
  · simp [send_email, hf]
  · simp [send_email, hf]

/-- Witness: one readable attachment, a failing SMTP session — the call
returns normally with the printed failure line. -/
theorem send_email_swallows_smtp_failure_witness :
    send_email (fun _ => some []) ["a"] (Except.error (("boom").data))
      = SendOutcome.ok (some (smtpFailMsg (("boom").data)))
    ∧ send_email (fun _ => some []) ["a"] (Except.ok ())
      = SendOutcome.ok none :=
  send_email_swallows_smtp_failure (fun _ => some []) ["a"] (("boom").data)
    (by decide)

/-- C9 (confirmed): the `try` block covers only the SMTP session.  If the
first unreadable path among the attachments is `a`, the `open` call
raises a `FileNotFoundError` that propagates out of `send_email`
(whatever the SMTP environment would have answered); and when every
attachment is readable no exception at all escapes the function. -/
theorem send_email_attachment_exception_propagates (f : FS)
    (atts : List String) (smtp : Except (List Char) Unit) :
    (∀ a, atts.find? (fun x => (f x).isNone) = some a →
        send_email f atts smtp = SendOutcome.raised (fileNotFoundMsg a))
    ∧ ((∀ a ∈ atts, (f a).isSome) →
        ∀ m, send_email f atts smtp ≠ SendOutcome.raised m) := by
  constructor
  · intro a ha
    simp [send_email, ha]
  · intro h m
    have hf : atts.find? (fun a => (f a).isNone) = none := by
      rw [List.find?_eq_none]
      intro a ha
      simp only [Option.isNone_iff_eq_none]
      intro hn
      exact absurd (h a ha) (by simp [hn])
    cases smtp with
    | ok u => simp [send_email, hf]
    | error e => simp [send_email, hf]

/-- Witness: the graph file exists but the data copy does not — the
notifier raises the file error even though the SMTP session would have
succeeded. -/
theorem send_email_attachment_exception_propagates_witness :
    send_email (fun p => if p = "g" then some [] else none) ["g", "c"]
      (Except.ok ())
      = SendOutcome.raised (fileNotFoundMsg "c") :=
  (send_email_attachment_exception_propagates
    (fun p => if p = "g" then some [] else none) ["g", "c"]
    (Except.ok ())).1 "c" (by decide)

/-! ### File-system helper lemmas -/

theorem writeFile_self (fs : FS) (p : String) (c : List Char) :
    writeFile fs p c p = some c := by
  simp [writeFile]

theorem writeFile_other {q p : String} (h : q ≠ p) (fs : FS) (c : List Char) :
    writeFile fs p c q = fs q := by
  simp [writeFile, h]

theorem removeFile_self (fs : FS) (p : String) : removeFile fs p p = none := by
  simp [removeFile]

theorem removeFile_other {q p : String} (h : q ≠ p) (fs : FS) :
    removeFile fs p q = fs q := by
  simp [removeFile, h]

/-- Inversion of a successful copy step. -/
theorem copyStep_ok {cfg : Config} {fs0 fs2 : FS} {content : List Char}
    (h : copyStep cfg fs0 = Except.ok (fs2, content)) :
    cfg.copied_file ≠ cfg.original_file
    ∧ fs0 cfg.original_file = some content
    ∧ fs2 = writeFile (writeFile fs0 cfg.copied_file content)
        cfg.original_file [] := by
  unfold copyStep at h
  split at h
  · exact absurd h (by simp)
  · next hne =>
    split at h
    · exact absurd h (by simp)
    · next c hc =>
      cases h
      exact ⟨hne, hc, rfl⟩

/-- A failing copy step raises either `SameFileError` or the source-read
error, nothing else. -/
theorem copyStep_error {cfg : Config} {fs0 : FS} {e : RunError}
    (h : copyStep cfg fs0 = Except.error e) :
    e = RunError.sameFile ∨ e = RunError.copyError := by
  unfold copyStep at h
  split at h
  · cases h; exact Or.inl rfl
  · split at h
    · cases h; exact Or.inr rfl
    · exact absurd h (by simp)

/-- Inversion of a successful `os.remove`. -/
theorem osRemove_ok {fs : FS} {p : String} {fs' : FS}
    (h : osRemove fs p = Except.ok fs') : fs' = removeFile fs p := by
  unfold osRemove at h
  split at h
  · exact absurd h (by simp)
  · cases h; rfl

/-- Shape of a run that finished with no error: the copy step succeeded
(so the two paths differ and the post-copy state has the truncated
original and the snapshot bytes), and the final file system is the
post-render state with both artifacts removed. -/
theorem mainRun_ok_shape (cfg : Config) (fs0 : FS)
    (smtp : Except (List Char) Unit)
    (h : (mainRun cfg fs0 smtp).err = none) :
    cfg.copied_file ≠ cfg.original_file
    ∧ ∃ fs2 : FS, fs2 cfg.original_file = some []
      ∧ fs2 cfg.copied_file = fs0 cfg.original_file
      ∧ (mainRun cfg fs0 smtp).fs
          = removeFile (removeFile (writeFile fs2 cfg.graph_file pngBytes)
              cfg.copied_file) cfg.graph_file := by
  revert h
  unfold mainRun
  split
  · intro h; exact absurd h (by simp)
  · next fs2 content hcs =>
    obtain ⟨hne, hfs0, hfs2⟩ := copyStep_ok hcs
    split
    · intro h; exact absurd h (by simp)
    · next c2 hc2 =>
      split
      · intro h; exact absurd h (by simp)
      · split
        · intro h; exact absurd h (by simp)
        · split
          · split
            · intro h; exact absurd h (by simp)
            · split
              · intro h; exact absurd h (by simp)
              · next fs4 hr4 =>
                split
                · intro h; exact absurd h (by simp)
                · next fs5 hr5 =>
                  intro _
                  refine ⟨hne, fs2, ?_, ?_, ?_⟩
                  · rw [hfs2, writeFile_self]
                  · rw [hfs2, writeFile_other hne, writeFile_self, hfs0]
                  · show fs5 = _
                    rw [osRemove_ok hr5, osRemove_ok hr4]
          · intro h; exact absurd h (by simp)

/-- Concrete input for the C3 theorems: distinct paths, one record with a
malformed temperature literal (aborting run)... -/
def cfgC3 : Config :=
  ⟨"o3", "c3", "g3", "x3", [("h1").data], [("blue").data]⟩

/-- A perfdata file whose record makes `astype(float)` raise. -/
def fsC3bad : FS := fun p =>
  if p = "o3" then
    some (("8\th1\ts\tOK\t0\t1\tm1\tm2\td\tAmbient_temperatureC=..").data)
  else none

/-- A perfdata file on which the run completes (no temperature token, so
the reading keeps a missing value and nothing raises). -/
def fsC3good : FS := fun p =>
  if p = "o3" then
    some (("9\th1\ts\tOK\t0\t1\tm1\tm2\td\tno token").data)
  else none

/-- C3 (corrected): on a run that completes the pipeline — and the SMTP
outcome is arbitrary here, since a delivery failure is swallowed — both
artifact files (the snapshot copy and the chart image) are removed. -/
theorem mainRun_cleanup_on_completed_run (cfg : Config) (fs0 : FS)
    (smtp : Except (List Char) Unit)
    (h : (mainRun cfg fs0 smtp).err = none) :
    (mainRun cfg fs0 smtp).fs cfg.copied_file = none
    ∧ (mainRun cfg fs0 smtp).fs cfg.graph_file = none := by
  obtain ⟨-, fs2, -, -, hfs⟩ := mainRun_ok_shape cfg fs0 smtp h
  rw [hfs]
  refine ⟨?_, removeFile_self _ _⟩
  by_cases hcg : cfg.copied_file = cfg.graph_file
  · rw [hcg, removeFile_self]
  · rw [removeFile_other hcg, removeFile_self]

/-- Witness: a completed run whose delivery failed (the SMTP environment
raised); the artifacts are deleted regardless. -/
theorem mainRun_cleanup_on_completed_run_witness :
    (mainRun cfgC3 fsC3good (Except.error (("down").data))).fs cfgC3.copied_file
      = none
    ∧ (mainRun cfgC3 fsC3good (Except.error (("down").data))).fs cfgC3.graph_file
      = none :=
  mainRun_cleanup_on_completed_run cfgC3 fsC3good
    (Except.error (("down").data)) (by decide)

/-- C3 counterexample: a run aborted by the extraction step leaves the
snapshot copy on disk — the claim's 'no artifact file remains on every
exit path' fails on this exit path. -/
theorem mainRun_aborted_run_leaves_snapshot :
    (mainRun cfgC3 fsC3bad (Except.ok ())).err = some RunError.extractError
    ∧ (mainRun cfgC3 fsC3bad (Except.ok ())).fs cfgC3.copied_file
        = some (("8\th1\ts\tOK\t0\t1\tm1\tm2\td\tAmbient_temperatureC=..").data) := by
  decide

/-- Concrete input for the C2 theorem. -/
def cfgC2 : Config :=
  ⟨"o2", "c2", "g2", "x2", [("h1").data], [("blue").data]⟩

/-- A well-formed perfdata file (temperature token absent, which is the
non-fatal missing-data case). -/
def fsC2 : FS := fun p =>
  if p = "o2" then
    some (("5\th1\ts\tOK\t0\t1\tm1\tm2\td\tdetail").data)
  else none

/-- C2 (code_bug): a full, error-free run writes exactly the snapshot
copy, the truncated original and the chart image — the configured
`excel_file` path is never written, and no spreadsheet exists at the end
of the run (or at any other time). -/
theorem mainRun_never_writes_excel :
    (mainRun cfgC2 fsC2 (Except.ok ())).err = none
    ∧ (mainRun cfgC2 fsC2 (Except.ok ())).writes
        = [cfgC2.copied_file, cfgC2.original_file, cfgC2.graph_file]
    ∧ cfgC2.excel_file ∉ (mainRun cfgC2 fsC2 (Except.ok ())).writes
    ∧ (mainRun cfgC2 fsC2 (Except.ok ())).fs cfgC2.excel_file = none := by
  decide

/-- Concrete input for the C5 theorems. -/
def cfgC5 : Config :=
  ⟨"o5", "c5", "g5", "x5", [("h1").data], [("blue").data]⟩

/-- A source file of the wrong shape: its only line has two columns
instead of ten. -/
def fsC5bad : FS := fun p =>
  if p = "o5" then some (("a\tb").data) else none

/-- C5 (corrected): an unreadable source file aborts the run before any
mutation — the file system is untouched; but a run aborted by the
loading, extraction or timestamp step (wrong shape / unparsable
contents) aborts with the original file already truncated to empty. -/
theorem mainRun_truncation_ordering (cfg : Config) (fs0 : FS)
    (smtp : Except (List Char) Unit) :
    (fs0 cfg.original_file = none → cfg.copied_file ≠ cfg.original_file →
        (mainRun cfg fs0 smtp).fs = fs0
        ∧ (mainRun cfg fs0 smtp).err = some RunError.copyError)
    ∧ (∀ e, (mainRun cfg fs0 smtp).err = some e →
        (e = RunError.parseError ∨ e = RunError.extractError
          ∨ e = RunError.dateError) →
        (mainRun cfg fs0 smtp).fs cfg.original_file = some []) := by
  constructor
  · intro hno hne
    have hcs : copyStep cfg fs0 = Except.error RunError.copyError := by
      unfold copyStep
      rw [if_neg hne, hno]
    unfold mainRun
    rw [hcs]
    exact ⟨rfl, rfl⟩
  · intro e
    unfold mainRun
    split
    · next e0 hcs =>
      intro h hdisj
      cases h
      rcases copyStep_error hcs with h0 | h0 <;> rw [h0] at hdisj <;>
        simp at hdisj
    · next fs2 content hcs =>
      obtain ⟨hne, hfs0, hfs2⟩ := copyStep_ok hcs
      have horig : fs2 cfg.original_file = some [] := by
        rw [hfs2, writeFile_self]
      split
      · intro _ _; exact horig
      · split
        · intro _ _; exact horig
        · split
          · intro _ _; exact horig
          · split
            · split
              · intro h hdisj
                cases h
                simp at hdisj
              · split
                · intro h hdisj
                  cases h
                  simp at hdisj
                · split
                  · intro h hdisj
                    cases h
                    simp at hdisj
                  · intro h
                    exact absurd h (by simp)
            · intro _ _; exact horig

/-- Witness: both halves of the ordering theorem at concrete inputs — a
missing source file leaves the file system untouched, and a wrong-shape
source file aborts with the original already emptied. -/
theorem mainRun_truncation_ordering_witness :
    ((mainRun cfgC5 (fun _ => none) (Except.ok ())).fs = (fun _ => none)
      ∧ (mainRun cfgC5 (fun _ => none) (Except.ok ())).err
          = some RunError.copyError)
    ∧ (mainRun cfgC5 fsC5bad (Except.ok ())).fs cfgC5.original_file
        = some [] := by
  constructor
  · exact (mainRun_truncation_ordering cfgC5 (fun _ => none)
      (Except.ok ())).1 rfl (by decide)
  · exact (mainRun_truncation_ordering cfgC5 fsC5bad (Except.ok ())).2
      RunError.parseError (by decide) (Or.inl rfl)

/-- C5 counterexample: wrong-shape contents do not abort before the
truncation — the run aborts, yet the original file has already been
emptied (its pre-run content was not empty). -/
theorem mainRun_wrong_shape_aborts_after_truncation :
    (mainRun cfgC5 fsC5bad (Except.ok ())).err = some RunError.parseError
    ∧ (mainRun cfgC5 fsC5bad (Except.ok ())).fs cfgC5.original_file = some []
    ∧ fsC5bad cfgC5.original_file ≠ some [] := by
  decide

/-- Concrete input for the C6 theorems. -/
def cfgC6 : Config :=
  ⟨"o6", "c6", "g6", "x6", [("h1").data], [("blue").data]⟩

/-- A well-formed source file (no temperature token: nothing raises). -/
def fsC6 : FS := fun p =>
  if p = "o6" then
    some (("4\th1\ts\tOK\t0\t1\tm1\tm2\td\tdetail").data)
  else none

/-- C6 (corrected): immediately after the copy-and-truncate step the
original file is empty and its pre-run content is, byte for byte, the
snapshot copy's content; and after a completed run the original is still
empty — but the snapshot has been deleted by the cleanup, so the pre-run
bytes are no longer at the copied-file path. -/
theorem copy_truncate_snapshot_property (cfg : Config) (fs0 : FS) :
    (∀ content : List Char, fs0 cfg.original_file = some content →
        cfg.copied_file ≠ cfg.original_file →
        ∃ fs2 : FS, copyStep cfg fs0 = Except.ok (fs2, content)
          ∧ fs2 cfg.original_file = some []
          ∧ fs2 cfg.copied_file = some content)
    ∧ (∀ smtp : Except (List Char) Unit,
        cfg.graph_file ≠ cfg.original_file →
        (mainRun cfg fs0 smtp).err = none →
        (mainRun cfg fs0 smtp).fs cfg.original_file = some []
          ∧ (mainRun cfg fs0 smtp).fs cfg.copied_file = none) := by
  constructor
  · intro content hc hne
    refine ⟨writeFile (writeFile fs0 cfg.copied_file content)
      cfg.original_file [], ?_, ?_, ?_⟩
    · unfold copyStep
      rw [if_neg hne, hc]
    · rw [writeFile_self]
    · rw [writeFile_other hne, writeFile_self]
  · intro smtp hgo h
    obtain ⟨hne, fs2, h2o, -, hfs⟩ := mainRun_ok_shape cfg fs0 smtp h
    have hog : cfg.original_file ≠ cfg.graph_file := fun hc => hgo hc.symm
    have hoc : cfg.original_file ≠ cfg.copied_file := fun hc => hne hc.symm
    constructor
    · rw [hfs, removeFile_other hog, removeFile_other hoc,
        writeFile_other hog, h2o]
    · rw [hfs]
      by_cases hcg : cfg.copied_file = cfg.graph_file
      · rw [hcg, removeFile_self]
      · rw [removeFile_other hcg, removeFile_self]

/-- Witness: both halves at a concrete complete run — the mid-run snapshot
holds the pre-run bytes with the original emptied, and the post-run
state has the original empty and the snapshot gone. -/
theorem copy_truncate_snapshot_property_witness :
    (∃ fs2 : FS, copyStep cfgC6 fsC6 = Except.ok
        (fs2, ("4\th1\ts\tOK\t0\t1\tm1\tm2\td\tdetail").data)
      ∧ fs2 cfgC6.original_file = some []
      ∧ fs2 cfgC6.copied_file
          = some (("4\th1\ts\tOK\t0\t1\tm1\tm2\td\tdetail").data))
    ∧ ((mainRun cfgC6 fsC6 (Except.ok ())).fs cfgC6.original_file = some []
      ∧ (mainRun cfgC6 fsC6 (Except.ok ())).fs cfgC6.copied_file = none) := by
  constructor
  · exact (copy_truncate_snapshot_property cfgC6 fsC6).1
      (("4\th1\ts\tOK\t0\t1\tm1\tm2\td\tdetail").data) (by decide) (by decide)
  · exact (copy_truncate_snapshot_property cfgC6 fsC6).2
      (Except.ok ()) (by decide) (by decide)

/-- C6 counterexample: immediately after a completed run the snapshot
copy no longer exists, so the pre-run content (which was non-empty) is
not present at the copied-file path. -/
theorem mainRun_snapshot_deleted_after_completed_run :
    (mainRun cfgC6 fsC6 (Except.ok ())).err = none
    ∧ (mainRun cfgC6 fsC6 (Except.ok ())).fs cfgC6.copied_file = none
    ∧ fsC6 cfgC6.original_file ≠ none := by
  decide

/-! ### Well-formed literals (for the exact-extraction claim) -/

/-- The characters of a decimal literal: integer digits `ip`, optionally
followed by a dot and the fraction digits `fp`. -/
def litChars (ip : List Char) (fp : Option (List Char)) : List Char :=
  match fp with
  | none => ip
  | some f => ip ++ '.' :: f

/-- The exact numeric value of that literal. -/
def litVal (ip : List Char) (fp : Option (List Char)) : ℚ :=
  match fp with
  | none => (digitsToNat ip : ℚ)
  | some f => (digitsToNat ip : ℚ) + (digitsToNat f : ℚ) / (10 : ℚ) ^ f.length

/-- The text right after the literal must not continue it: empty, or
starting with a character outside `[\d.]`. -/
def boundaryOk (sfx : List Char) : Bool :=
  match sfx.head? with
  | none => true
  | some c => !(isDigitOrDot c)

theorem digit_not_dot {c : Char} (h : c.isDigit = true) : (c == '.') = false := by
  cases hb : c == '.' with
  | false => rfl
  | true =>
    have hc : c = '.' := eq_of_beq hb
    subst hc
    exact absurd h (by decide)

theorem takeWhile_append_of_all (p : Char → Bool) (l r : List Char)
    (hl : ∀ c ∈ l, p c = true)
    (hr : ∀ c, r.head? = some c → p c = false) :
    (l ++ r).takeWhile p = l := by
  induction l with
  | nil =>
    cases r with
    | nil => rfl
    | cons c rs => simp [List.takeWhile_cons, hr c rfl]
  | cons a l ih =>
    rw [List.cons_append, List.takeWhile_cons, if_pos (hl a (by simp))]
    rw [ih (fun c hc => hl c (by simp [hc]))]

theorem dropWhile_append_of_all (p : Char → Bool) (l r : List Char)
    (hl : ∀ c ∈ l, p c = true)
    (hr : ∀ c, r.head? = some c → p c = false) :
    (l ++ r).dropWhile p = r := by
  induction l with
  | nil =>
    cases r with
    | nil => rfl
    | cons c rs => simp [List.dropWhile_cons, hr c rfl]
  | cons a l ih =>
    rw [List.cons_append, List.dropWhile_cons, if_pos (hl a (by simp))]
    exact ih (fun c hc => hl c (by simp [hc]))

/-- At a position where the whole pattern matches, the search stops and
captures the maximal `[\d.]` run after the key. -/
theorem extractToken_of_match {s : List Char} (h : keyMatchAt s = true) :
    extractToken s
      = some ((s.drop tempKey.length).takeWhile isDigitOrDot) := by
  cases s with
  | nil => exact absurd h (by decide)
  | cons c rest => simp [extractToken, h]

/-- The left-to-right scan skips any prefix in which the pattern matches
nowhere. -/
theorem extractToken_append_of_no_match (pre blob : List Char)
    (h : ∀ i, i < pre.length → keyMatchAt ((pre ++ blob).drop i) = false) :
    extractToken (pre ++ blob) = extractToken blob := by
  induction pre with
  | nil => rfl
  | cons c pre ih =>
    have h0 : keyMatchAt (c :: (pre ++ blob)) = false := by
      have h0 := h 0 (by simp)
      rw [List.cons_append, List.drop_zero] at h0
      exact h0
    rw [List.cons_append]
    rw [show extractToken (c :: (pre ++ blob))
        = if keyMatchAt (c :: (pre ++ blob)) then
            some (((c :: (pre ++ blob)).drop tempKey.length).takeWhile
              isDigitOrDot)
          else extractToken (pre ++ blob) from rfl]
    rw [h0]
    simp only [Bool.false_eq_true, if_false]
    refine ih (fun i hi => ?_)
    have hs := h (i + 1) (by simpa using Nat.succ_lt_succ hi)
    rw [List.cons_append, List.drop_succ_cons] at hs
    exact hs

/-- The pattern does match right where the key sits, provided a `[\d.]`
character follows. -/
theorem keyMatchAt_key_append {rest : List Char} {c : Char}
    (hh : rest.head? = some c) (hd : isDigitOrDot c = true) :
    keyMatchAt (tempKey ++ rest) = true := by
  unfold keyMatchAt
  rw [List.drop_left, hh]
  simp [hd, List.isPrefixOf_iff_prefix, List.prefix_append]

theorem litChars_head {ip : List Char} (hne : ip ≠ [])
    (fp : Option (List Char)) : (litChars ip fp).head? = ip.head? := by
  cases ip with
  | nil => exact absurd rfl hne
  | cons a l =>
    cases fp with
    | none => rfl
    | some f => rfl

theorem litChars_all_digitOrDot {ip : List Char}
    (hip : ∀ c ∈ ip, c.isDigit = true) {fp : Option (List Char)}
    (hfp : ∀ c ∈ fp.getD [], c.isDigit = true) :
    ∀ c ∈ litChars ip fp, isDigitOrDot c = true := by
  intro c hc
  cases fp with
  | none => simp [isDigitOrDot, hip c hc]
  | some f =>
    simp only [litChars] at hc
    rcases List.mem_append.mp hc with h | h
    · simp [isDigitOrDot, hip c h]
    · rcases List.mem_cons.mp h with h | h
      · subst h; rfl
      · have : c.isDigit = true := hfp c (by simpa using h)
        simp [isDigitOrDot, this]

theorem validFloatRun_litChars {ip : List Char} (hne : ip ≠ [])
    (hip : ∀ c ∈ ip, c.isDigit = true) {fp : Option (List Char)}
    (hfp : ∀ c ∈ fp.getD [], c.isDigit = true) :
    validFloatRun (litChars ip fp) = true := by
  have hfil : ip.filter (fun c => c == '.') = [] := by
    rw [List.filter_eq_nil_iff]
    intro a ha
    simp [digit_not_dot (hip a ha)]
  obtain ⟨a, l, rfl⟩ : ∃ a l, ip = a :: l := by
    cases ip with
    | nil => exact absurd rfl hne
    | cons a l => exact ⟨a, l, rfl⟩
  have hda : a.isDigit = true := hip a (by simp)
  unfold validFloatRun atMostOneDot
  cases fp with
  | none =>
    simp only [litChars]
    rw [hfil]
    simp [hda]
  | some f =>
    have hfilf : f.filter (fun c => c == '.') = [] := by
      rw [List.filter_eq_nil_iff]
      intro b hb
      simp [digit_not_dot (hfp b (by simpa using hb))]
    simp only [litChars, List.filter_append, hfil, List.filter_cons, hfilf]
    simp [hda]

theorem parseRun_litChars {ip : List Char} (hne : ip ≠ [])
    (hip : ∀ c ∈ ip, c.isDigit = true) {fp : Option (List Char)}
    (hfp : ∀ c ∈ fp.getD [], c.isDigit = true) :
    parseRun (litChars ip fp) = some (litVal ip fp) := by
  have hl : ∀ c ∈ ip, (fun c => !(c == '.')) c = true := by
    intro c hc
    simp [digit_not_dot (hip c hc)]
  unfold parseRun
  rw [validFloatRun_litChars hne hip hfp]
  cases fp with
  | none =>
    have htw : List.takeWhile (fun c => !(c == '.')) ip = ip := by
      have h2 := takeWhile_append_of_all (fun c => !(c == '.')) ip [] hl
        (fun c hc => by cases hc)
      rw [List.append_nil] at h2
      exact h2
    have hdw : List.dropWhile (fun c => !(c == '.')) ip = [] := by
      have h2 := dropWhile_append_of_all (fun c => !(c == '.')) ip [] hl
        (fun c hc => by cases hc)
      rw [List.append_nil] at h2
      exact h2
    rw [if_pos rfl]
    simp only [litChars]
    rw [hdw, htw]
    rfl
  | some f =>
    have hr : ∀ c : Char, (('.' :: f).head? = some c) →
        (fun c => !(c == '.')) c = false := by
      intro c hc
      cases hc
      simp
    have htw : (litChars ip (some f)).takeWhile (fun c => !(c == '.')) = ip :=
      takeWhile_append_of_all (fun c => !(c == '.')) ip ('.' :: f) hl hr
    have hdw : (litChars ip (some f)).dropWhile (fun c => !(c == '.'))
        = '.' :: f :=
      dropWhile_append_of_all (fun c => !(c == '.')) ip ('.' :: f) hl hr
    rw [if_pos rfl, hdw, htw]
    rfl

/-- C7 (confirmed): a well-formed token — the key, then digits optionally
followed by a dot and fraction digits, then a non-`[\d.]` boundary —
preceded by text in which the pattern matches nowhere earlier, is
extracted as exactly the numeric value of the literal after the `=`. -/
theorem extractTemperature_wellformed_exact (pre ip : List Char)
    (fp : Option (List Char)) (sfx : List Char)
    (hne : ip ≠ []) (hip : ∀ c ∈ ip, c.isDigit = true)
    (hfp : ∀ c ∈ fp.getD [], c.isDigit = true)
    (hsfx : boundaryOk sfx = true)
    (hpre : ∀ i, i < pre.length →
        keyMatchAt ((pre ++ (tempKey ++ (litChars ip fp ++ sfx))).drop i)
          = false) :
    extractTemperature (pre ++ (tempKey ++ (litChars ip fp ++ sfx)))
      = Except.ok (some (litVal ip fp)) := by
  obtain ⟨a, l, hip_eq⟩ : ∃ a l, ip = a :: l := by
    cases ip with
    | nil => exact absurd rfl hne
    | cons a l => exact ⟨a, l, rfl⟩
  have hha : (litChars ip fp ++ sfx).head? = some a := by
    rw [List.head?_append, litChars_head hne fp, hip_eq]
    rfl
  have hda : isDigitOrDot a = true := by
    have : a.isDigit = true := hip a (by rw [hip_eq]; simp)
    simp [isDigitOrDot, this]
  have hsfx' : ∀ c, sfx.head? = some c → isDigitOrDot c = false := by
    intro c hc
    unfold boundaryOk at hsfx
    rw [hc] at hsfx
    simpa using hsfx
  have htok : extractToken (pre ++ (tempKey ++ (litChars ip fp ++ sfx)))
      = some (litChars ip fp) := by
    rw [extractToken_append_of_no_match pre _ hpre]
    rw [extractToken_of_match (keyMatchAt_key_append hha hda)]
    rw [List.drop_left]
    rw [takeWhile_append_of_all isDigitOrDot (litChars ip fp) sfx
      (litChars_all_digitOrDot hip hfp) hsfx']
  unfold extractTemperature
  simp only [htok]
  rw [parseRun_litChars hne hip hfp]

/-- Witness: `Ambient_temperatureC=21.5` followed by a blank boundary is
extracted as the exact value of the literal `21.5`. -/
theorem extractTemperature_wellformed_exact_witness :
    extractTemperature (([] : List Char)
        ++ (tempKey ++ (litChars (("21").data) (some (("5").data))
              ++ (" rest").data)))
      = Except.ok (some (litVal (("21").data) (some (("5").data)))) :=
  extractTemperature_wellformed_exact [] (("21").data) (some (("5").data))
    ((" rest").data) (by decide) (by decide) (by decide) (by decide)
    (fun i hi => absurd hi (Nat.not_lt_zero i))

end TempGraph
